import Mathlib

/-!
Verification of the news scoring, classification and presentation core of
the `new-ai-news-site` repository.

The development shallowly embeds the relevant parts of the source:

* `scripts/news/score.ts` — composite scoring (`scoreItem`), threshold
  labeling (`labelFromScore`), the coverage-guarantee promotion
  (`ensureAtLeast`), per-persona 5-axis breakdowns
  (`computeEngineerBreakdown` / `computeBusinessBreakdown`,
  `breakdownAvg`), tiering (`determineTier`), the ≥20-item padding step of
  `main`, and the output mapping (`mapToOutput`).
* `docs/script.js` — the browser-side persona score accessor
  (`getPersonaScore`), the filter predicate (`applyFilters`), the
  per-group sort used by the renderer, and the key-point extraction
  machinery (`splitSentences`, `extractKeyPoints`,
  `deriveLabeledKeyPoints`).

Modelling conventions:
* JavaScript numbers are modelled as `ℚ` (the source only performs exact
  decimal arithmetic on small values; `Math.round` is modelled as
  round-half-up `jsRound`).
* `dayjs` date parsing is abstracted: an item carries, next to its raw
  `publishedAt` string, the abstract parse result `publishedParsed :
  Option ℤ` — `none` models an invalid date, `some diff` models
  `dayjs().diff(d, 'day')` (now minus published, in whole days).
  `daysFromNow` consumes that abstraction exactly as the source consumes
  the dayjs values.
* JavaScript regular expressions in the source are alternations of string
  literals (plus a handful of simple numeric scanners); they are modelled
  by explicit substring / word-boundary / scanner functions over
  `List Char`, with the alternation lists transcribed verbatim.
* In-place array mutation (`ensureAtLeast` mutates shared object
  references through a sorted copy) is modelled by sorting item *indices*
  and functionally updating the list at an index, which yields the same
  final array contents.
-/

/-- Recommendation labels used by `score.ts` and `script.js`. -/
inductive Label where
  | must_read
  | recommended
  | consider
  | skip
deriving DecidableEq, Repr, Inhabited

/-- The two reader personas. -/
inductive Persona where
  | engineer
  | business
deriving DecidableEq, Repr, Inhabited

/-! ### String helpers (JS `includes`, `toLowerCase`, regex literals) -/

/-- JS whitespace characters occurring in the modelled inputs (`\s`). -/
def isJsWs (c : Char) : Bool :=
  c = ' ' || c = '\t' || c = '\n' || c = '\r'

/-- ASCII lower-casing, the effect of `String.prototype.toLowerCase` on the
ASCII range (the sources' non-ASCII characters are unaffected by JS
lower-casing). -/
def lowerStr (s : String) : String := String.mk (s.data.map Char.toLower)

/-- `pat` occurs as a contiguous substring of the character list — JS
`String.prototype.includes`. -/
def hasSubstr (pat : List Char) : List Char → Bool
  | [] => pat.isEmpty
  | c :: t => pat.isPrefixOf (c :: t) || hasSubstr pat t

/-- JS `hay.includes(pat)` on strings. -/
def strIncludes (hay pat : String) : Bool := hasSubstr pat.data hay.data

/-- Any of the (case-sensitive) literal alternatives occurs in `hay` —
models a `/a|b|.../` regex test. -/
def anyIncl (alts : List String) (hay : String) : Bool :=
  alts.any (fun a => strIncludes hay a)

/-- Any of the literal alternatives occurs, case-insensitively — models a
`/a|b|.../i` regex test. -/
def anyInclCI (alts : List String) (hay : String) : Bool :=
  alts.any (fun a => strIncludes (lowerStr hay) (lowerStr a))

/-- JS regex word character (`\w` = `[A-Za-z0-9_]`). -/
def isWordChar (c : Char) : Bool :=
  ('a' ≤ c && c ≤ 'z') || ('A' ≤ c && c ≤ 'Z') || ('0' ≤ c && c ≤ '9') || c = '_'

/-- The literal word `w` matches at the head of `hay` with `\b` boundaries
on both sides, `prev` being the character immediately before `hay`. -/
def wordAt (prev : Option Char) (w : List Char) (hay : List Char) : Bool :=
  w.isPrefixOf hay
    && !((prev.map isWordChar).getD false)
    && !((((hay.drop w.length).head?).map isWordChar).getD false)

/-- Scan `hay` for a `\b w \b` match, `prev` being the character before
the current position. -/
def hasWordAux (w : List Char) : Option Char → List Char → Bool
  | prev, [] => wordAt prev w []
  | prev, c :: t => wordAt prev w (c :: t) || hasWordAux w (some c) t

/-- `/\bw\b/` holds somewhere in `hay`. -/
def hasWord (hay : String) (w : String) : Bool := hasWordAux w.data none hay.data

/-- `/\b(a|b|...)\b/` holds for some alternative. -/
def anyWord (alts : List String) (hay : String) : Bool :=
  alts.any (fun a => hasWord hay a)

/-! ### Numeric helpers -/

/-- `Math.max(0, Math.min(1, n))` — the `clamp01` helper of `score.ts`. -/
def clamp01 (n : ℚ) : ℚ := max 0 (min 1 n)

/-- JS `Math.round`: round half toward positive infinity. -/
def jsRound (q : ℚ) : ℚ := ((⌊q + 1/2⌋ : ℤ) : ℚ)

/-! ### Data model of `score.ts` -/

/-- `EnrichedItem` of `score.ts`.  `publishedParsed` abstracts the dayjs
parse of `publishedAt` (see the header comment). -/
structure EnrichedItem where
  id : String
  title : String
  url : String
  source : String
  publishedAt : String
  publishedParsed : Option ℤ
  tags : List String
  summary : String
  sourceDomain : String
deriving DecidableEq, Repr, Inhabited

/-- `PersonaBreakdown` of `score.ts`: the five named axes. -/
structure PersonaBreakdown where
  quality : ℚ
  relevance : ℚ
  temporal : ℚ
  trust : ℚ
  actionability : ℚ
deriving DecidableEq, Repr, Inhabited

/-- `PersonaEval` of `score.ts` (the optional `recommendation` field is
never set by `score.ts` and is omitted). -/
structure PersonaEval where
  total_score : ℚ
  breakdown : PersonaBreakdown
deriving DecidableEq, Repr, Inhabited

/-- The `evaluation` object attached to scored items. -/
structure Evaluation where
  engineer : PersonaEval
  business : PersonaEval
deriving DecidableEq, Repr, Inhabited

/-- `ScoredItem` of `score.ts`. -/
structure ScoredItem extends EnrichedItem where
  score : ℚ
  label : Label
  labelReason : Option String := none
  source_tier : Option ℕ := none
  evaluation : Option Evaluation := none
deriving DecidableEq, Repr, Inhabited

/-- Default element used with `List.getD` (models reading an array slot;
all reads are in bounds in the proofs). -/
def dfltScored : ScoredItem := default

/-- The domain → trust-weight table (`source_scores.json`), as an
association list (first binding wins, like a JS object lookup). -/
def SourceScores : Type := List (String × ℚ)

/-- `record[key]` on the trust table: `Option`-valued exact-key lookup. -/
def recordGet (m : SourceScores) (k : String) : Option ℚ :=
  (List.find? (fun p => p.1 = k) m).map (fun p => p.2)

/-- `sourceScores[domain] ?? sourceScores['default'] ?? 0.5` — the
credibility base used throughout `score.ts`. -/
def credLookup (m : SourceScores) (domain : String) : ℚ :=
  match recordGet m domain with
  | some v => v
  | none =>
    match recordGet m "default" with
    | some v => v
    | none => 1/2

/-- `daysFromNow` of `score.ts`, over the abstract parse result:
invalid dates give `999`, negative (future-dated) differences give `0`. -/
def daysFromNow (parsed : Option ℤ) : ℤ :=
  match parsed with
  | none => 999
  | some diff => if diff < 0 then 0 else diff

/-- The freshness weight `clamp01((30 - Math.min(30, Math.max(0, days))) / 30)`
shared by both persona breakdowns in `score.ts`. -/
def temporalWeight (days : ℤ) : ℚ :=
  clamp01 ((30 - min 30 (max 0 (days : ℚ))) / 30)

/-! ### Composite scoring (`scoreItem`) and labeling (`score.ts`) -/

/-- The keyword list of `scoreItem`'s relevance component. -/
def relevanceKw : List String :=
  ["agent", "agents", "tooling", "rag", "evaluation", "latency", "cost",
   "security", "benchmark", "release", "model", "inference"]

/-- `scoreItem` of `score.ts`: recency (0–40) + credibility (0–25) +
keyword relevance (0–20) + impact (0–15). -/
def scoreItem (it : EnrichedItem) (sourceScores : SourceScores) : ℚ :=
  let days := daysFromNow it.publishedParsed
  let recency := max 0 (min 40 (jsRound ((30 - min 30 ((days : ℚ))) * (40 / 30))))
  let credBase := credLookup sourceScores it.sourceDomain
  let credibility := jsRound (credBase * 25)
  let text := lowerStr (it.title ++ " " ++ it.summary)
  let rel0 := relevanceKw.foldl (fun r k => if strIncludes text k then r + 3 else r) 0
  let rel1 := if anyWord ["agent", "agents", "rag", "latency", "cost", "security"] text
    then rel0 + 5 else rel0
  let relevance := min 20 rel1
  let impact0 : ℚ :=
    if anyInclCI ["release", "launch", "launced", "announce", "発表", "リリース"] text
    then 8 else 0
  let impact1 :=
    impact0 + (if anyInclCI ["benchmark", "SOTA", "性能", "大規模", "大幅", "大規模モデル"] text
      then 7 else 0)
  let impact := min 15 impact1
  recency + credibility + relevance + impact

/-- `labelFromScore` of `score.ts`. -/
def labelFromScore (score : ℚ) : Label :=
  if score ≥ 80 then Label.must_read
  else if score ≥ 60 then Label.recommended
  else if score ≥ 40 then Label.consider
  else Label.skip

/-- `determineTier` of `score.ts`. -/
def determineTier (domain : String) (sourceScores : SourceScores) : ℕ :=
  if credLookup sourceScores domain ≥ 8/10 then 1 else 2

/-! ### Persona breakdowns (`score.ts`) -/

/-- The engineer keyword vocabulary (`techKw` in `computeEngineerBreakdown`). -/
def techKw : List String :=
  ["agent", "agents", "rag", "latency", "benchmark", "release", "model",
   "inference", "github", "code", "sample", "tutorial", "手順", "導入",
   "実装", "エンジニア", "開発"]

/-- `computeEngineerBreakdown` of `score.ts`. -/
def computeEngineerBreakdown (it : EnrichedItem) (sourceScores : SourceScores) :
    PersonaBreakdown :=
  let credBase := credLookup sourceScores it.sourceDomain
  let days := daysFromNow it.publishedParsed
  let temporal := temporalWeight days
  let text := lowerStr (it.title ++ " " ++ it.summary)
  let rel0 := techKw.foldl (fun r k => if strIncludes text k then r + 8/100 else r) 0
  let rel := min 1 rel0
  let actionabilityBoost :=
    if anyInclCI ["github", "コード", "サンプル", "手順", "チュートリアル",
        "how to", "guide", "実装", "導入"] text
    then (9 : ℚ)/10 else 45/100 * rel
  { quality := clamp01 (6/10 * credBase + 4/10 * rel)
    relevance := clamp01 rel
    temporal := temporal
    trust := clamp01 credBase
    actionability := clamp01 actionabilityBoost }

/-- `computeBusinessBreakdown` of `score.ts`. -/
def computeBusinessBreakdown (it : EnrichedItem) (sourceScores : SourceScores) :
    PersonaBreakdown :=
  let credBase := credLookup sourceScores it.sourceDomain
  let days := daysFromNow it.publishedParsed
  let temporal := temporalWeight days
  let text := lowerStr (it.title ++ " " ++ it.summary)
  let bizSignal : ℚ :=
    if anyInclCI ["roi", "cost", "コスト", "売上", "収益", "採用", "事業",
        "市場", "投資", "影響", "効率", "生産性", "導入", "成功", "ケーススタディ"] text
    then 9/10 else 4/10
  let relevance := clamp01 bizSignal
  let quality := clamp01 (5/10 * credBase + 5/10 * relevance)
  let actionability := clamp01
    (if anyIncl ["導入", "ロードマップ", "戦略", "ケーススタディ", "事例",
        "フレームワーク", "テンプレート"] text
     then 85/100 else 4/10)
  { quality := quality
    relevance := relevance
    temporal := temporal
    trust := clamp01 credBase
    actionability := actionability }

/-- `breakdownAvg` of `score.ts`: the mean of the five axes. -/
def breakdownAvg (b : PersonaBreakdown) : ℚ :=
  (b.quality + b.relevance + b.temporal + b.trust + b.actionability) / 5

/-- The per-item body of `main`'s scoring map in `score.ts`. -/
def scoreOne (sourceScores : SourceScores) (it : EnrichedItem) : ScoredItem :=
  let sc := scoreItem it sourceScores
  let engineer := computeEngineerBreakdown it sourceScores
  let business := computeBusinessBreakdown it sourceScores
  { toEnrichedItem := it
    score := sc
    label := labelFromScore sc
    labelReason := none
    source_tier := some (determineTier it.sourceDomain sourceScores)
    evaluation := some
      { engineer := { total_score := breakdownAvg engineer, breakdown := engineer }
        business := { total_score := breakdownAvg business, breakdown := business } } }

/-! ### Coverage guarantee (`ensureAtLeast` of `score.ts`) -/

/-- The score of the item stored at index `i`. -/
def scoreAt (items : List ScoredItem) (i : ℕ) : ℚ := (items.getD i dfltScored).score

/-- Indices of `items` stably sorted by score, descending — models
`[...items].sort((a,b) => b.score - a.score)` (a stable sort of object
references, here represented by their positions). -/
def sortIdx (items : List ScoredItem) : List ℕ :=
  List.insertionSort (fun i j => scoreAt items j ≤ scoreAt items i)
    (List.range items.length)

/-- Functional update of the label (and `labelReason`) of the item at an
index — models the in-place mutation `sorted[k].label = ...`. -/
def setLabelAt : List ScoredItem → ℕ → Label → String → List ScoredItem
  | [], _, _, _ => []
  | it :: t, 0, lab, r => { it with label := lab, labelReason := some r } :: t
  | it :: t, n + 1, lab, r => it :: setLabelAt t n lab r

/-- `ensureAtLeast` of `score.ts`: promote the top-scoring item to
`must_read` when none exists, then the top non-`must_read` item to
`recommended` when none exists. -/
def ensureAtLeast (items : List ScoredItem) : List ScoredItem :=
  let hasMust := items.any (fun i => i.label == Label.must_read)
  let hasRec := items.any (fun i => i.label == Label.recommended)
  let sorted := sortIdx items
  let items1 :=
    if hasMust then items
    else
      match sorted with
      | [] => items
      | top :: _ => setLabelAt items top Label.must_read "fallback_promoted_top_to_must_read"
  if hasRec then items1
  else
    match sorted.find? (fun i => !((items1.getD i dfltScored).label == Label.must_read)) with
    | none => items1
    | some nxt => setLabelAt items1 nxt Label.recommended
        "fallback_promoted_second_to_recommended"

/-! ### Minimum-count padding and output mapping (`main` of `score.ts`) -/

/-- One placeholder ("dummy") item pushed by `main` when fewer than 20
items are available.  `nowTag` abstracts `Date.now().toString(36)` and
`dateStr` abstracts `new Date().toISOString().slice(0,10)` (today, hence
`publishedParsed = some 0`). -/
def mkDummy (sourceScores : SourceScores) (nowTag dateStr : String) (i : ℕ) : ScoredItem :=
  { id := "dummy_" ++ nowTag ++ "_" ++ toString i
    title := "ダミー記事 " ++ toString (i + 1) ++ "（プレースホルダー）"
    url := "https://example.com/"
    source := "placeholder"
    publishedAt := dateStr
    publishedParsed := some 0
    tags := ["placeholder"]
    summary := "データ不足時のプレースホルダー。最低表示件数を満たすために自動生成されました。"
    sourceDomain := "example.com"
    score := 45
    label := Label.consider
    labelReason := none
    source_tier := some (determineTier "example.com" sourceScores)
    evaluation := some
      { engineer :=
          { total_score := 45/100
            breakdown :=
              { quality := 5/10, relevance := 4/10, temporal := 5/10,
                trust := 5/10, actionability := 3/10 } }
        business :=
          { total_score := 45/100
            breakdown :=
              { quality := 5/10, relevance := 4/10, temporal := 5/10,
                trust := 5/10, actionability := 3/10 } } } }

/-- The "ensure at least 20 items" block of `main` in `score.ts`. -/
def padToTwenty (sourceScores : SourceScores) (nowTag dateStr : String)
    (scored : List ScoredItem) : List ScoredItem :=
  if scored.length < 20 then
    scored ++ (List.range (20 - scored.length)).map (mkDummy sourceScores nowTag dateStr)
  else scored

/-- The output record shape written by `mapToOutput` of `score.ts`. -/
structure OutputItem where
  id : String
  title : String
  summary : String
  url : String
  source : String
  source_tier : ℕ
  publishedAt : String
  tags : List String
  score : ℚ
  label : Label
  labelReason : Option String
  evaluation : Option Evaluation
deriving DecidableEq, Repr, Inhabited

/-- `mapToOutput` of `score.ts` (`i.sourceDomain || i.source` falls back
to `source` exactly when `sourceDomain` is the empty string;
`i.source_tier ?? 2` defaults to tier 2). -/
def mapToOutput (items : List ScoredItem) : List OutputItem :=
  items.map (fun i =>
    { id := i.id
      title := i.title
      summary := i.summary
      url := i.url
      source := if i.sourceDomain = "" then i.source else i.sourceDomain
      source_tier := i.source_tier.getD 2
      publishedAt := i.publishedAt
      tags := i.tags
      score := i.score
      label := i.label
      labelReason := i.labelReason
      evaluation := i.evaluation })

/-- `scored.sort((a,b) => b.score - a.score)` — the final descending sort
of `main` before writing the outputs. -/
def sortScoredDesc (l : List ScoredItem) : List ScoredItem :=
  List.insertionSort (fun a b => b.score ≤ a.score) l

/-- The full data path of `main` in `score.ts` (minus file I/O): score
each enriched item, apply the coverage guarantee, pad to 20, sort by
score descending, map to the output record shape. -/
def mainPipeline (sourceScores : SourceScores) (nowTag dateStr : String)
    (enriched : List EnrichedItem) : List OutputItem :=
  mapToOutput (sortScoredDesc (padToTwenty sourceScores nowTag dateStr
    (ensureAtLeast (enriched.map (scoreOne sourceScores)))))

/-! ### Browser-side data model and filters (`docs/script.js`) -/

/-- The per-persona evaluation entry as read by `script.js`. -/
structure JsPersonaEval where
  total_score : ℚ
deriving DecidableEq, Repr, Inhabited

/-- The `evaluation` object of a loaded article; either persona entry may
be absent (models `article.evaluation[persona]` being `undefined`). -/
structure JsEvaluation where
  engineer : Option JsPersonaEval
  business : Option JsPersonaEval
deriving DecidableEq, Repr, Inhabited

/-- `evaluation[currentPersona]` — keyed access on the evaluation object. -/
def evalGet (ev : JsEvaluation) : Persona → Option JsPersonaEval
  | Persona.engineer => ev.engineer
  | Persona.business => ev.business

/-- An article as consumed by `docs/script.js` (only the fields the
modelled functions read; every modelled field is a present string —
JS string-coercion of genuinely `undefined` fields is outside the model). -/
structure Article where
  title : String
  content : String
  source : String
  source_tier : Option ℤ
  evaluation : Option JsEvaluation
deriving DecidableEq, Repr, Inhabited

/-- `getPersonaScore` of `script.js`: the active persona's `total_score`,
or `0` when the article has no evaluation entry for that persona. -/
def getPersonaScore (persona : Persona) (article : Article) : ℚ :=
  match article.evaluation with
  | none => 0
  | some ev =>
    match evalGet ev persona with
    | none => 0
    | some e => e.total_score

/-- The article lacks an evaluation entry for `persona` (claim-side
predicate used to state the error-handling property). -/
def lacksEval (persona : Persona) (article : Article) : Bool :=
  match article.evaluation with
  | none => true
  | some ev => (evalGet ev persona).isNone

/-- `applyFilters` of `script.js`.  `tierFilter = none` models the `'all'`
option, `some t` models a numeric tier selection; `searchRaw` is the raw
search-box value (lower-cased on read, as in the source); the filter body
is the three-clause predicate of the source. -/
def applyFilters (tierFilter : Option ℤ) (minScore : ℚ) (searchRaw : String)
    (persona : Persona) (articles : List Article) : List Article :=
  let searchQuery := lowerStr searchRaw
  articles.filter (fun article =>
    (match tierFilter with
     | none => true
     | some t => article.source_tier == some t)
    && !(getPersonaScore persona article < minScore)
    && (searchQuery == ""
        || strIncludes (lowerStr (article.title ++ article.content ++ article.source))
             searchQuery))

/-- The within-group sort of `renderArticles`:
`items.sort((a,b) => getPersonaScore(b) - getPersonaScore(a))`. -/
def sortByPersonaDesc (persona : Persona) (l : List Article) : List Article :=
  List.insertionSort
    (fun a b => getPersonaScore persona b ≤ getPersonaScore persona a) l

/-! ### Sentence splitting (`splitSentences` of `script.js`) -/

/-- Collapse every whitespace run to a single space (auxiliary scan;
`prevWs` records whether the previous character was whitespace). -/
def collapseWsAux (prevWs : Bool) : List Char → List Char
  | [] => []
  | c :: t =>
    if isJsWs c then
      if prevWs then collapseWsAux true t else ' ' :: collapseWsAux true t
    else c :: collapseWsAux false t

/-- Collapse every whitespace run to a single space —
`text.replace(/\s+/g, ' ')`. -/
def collapseWs (l : List Char) : List Char := collapseWsAux false l

/-- Sentence-terminator characters of the split regex
`/(?<=[。．.!?！？])\s+/`. -/
def isSentTerm (c : Char) : Bool :=
  c = '。' || c = '．' || c = '.' || c = '!' || c = '?' || c = '！' || c = '？'

/-- Split a whitespace-collapsed character list after every terminator
that is followed by whitespace (the whitespace is consumed); `acc` holds
the current sentence reversed. -/
def splitTermAux (acc : List Char) : List Char → List (List Char)
  | [] => [acc.reverse]
  | c :: t =>
    if isJsWs c && ((acc.head?.map isSentTerm).getD false)
    then acc.reverse :: splitTermAux [] t
    else splitTermAux (c :: acc) t

/-- JS `String.prototype.trim` on a character list. -/
def trimChars (l : List Char) : List Char :=
  ((l.dropWhile isJsWs).reverse.dropWhile isJsWs).reverse

/-- `splitSentences` of `script.js`: collapse whitespace, split at
terminator-plus-space boundaries, trim, and drop empty fragments. -/
def splitSentences (text : String) : List (List Char) :=
  ((splitTermAux [] (collapseWs text.data)).map trimChars).filter
    (fun s => !s.isEmpty)

/-! ### Generic extraction (`extractKeyPoints` of `script.js`) -/

/-- The keyword list of `extractKeyPoints`. -/
def extractKw : List String :=
  ["AI", "生成", "モデル", "LLM", "RAG", "エージェント", "改善", "発表",
   "研究", "性能", "コスト", "導入", "事例", "OpenAI", "Google", "Meta",
   "Microsoft", "Anthropic", "Gemini", "Claude", "GPT", "Llama"]

/-- `s.includes(k)` for a character-list sentence and string keyword. -/
def sentIncl (s : List Char) (k : String) : Bool := hasSubstr k.data s

/-- `extractKeyPoints` of `script.js`: keyword-density ranking over the
`length > 25` sentences, take `count`, deduplicate by 12-character
prefix. -/
def extractKeyPoints (text : String) (count : ℕ) : List (List Char) :=
  if text = "" then []
  else
    let sents := (splitSentences text).filter (fun s => 25 < s.length)
    if sents.isEmpty then []
    else
      let scored := sents.map (fun s =>
        (s, extractKw.foldl (fun acc k => acc + (if sentIncl s k then 1 else 0)) (0 : ℚ)
              + (s.length : ℚ) / 200))
      let sorted := List.insertionSort
        (fun a b : List Char × ℚ => b.2 ≤ a.2) scored
      let picks := (sorted.take count).map (fun x => trimChars x.1)
      picks.foldl
        (fun uniq p =>
          if uniq.any (fun u => u.take 12 == p.take 12) then uniq else uniq ++ [p])
        []

/-! ### Labeled extraction (`deriveLabeledKeyPoints` of `script.js`) -/

/-- One category pattern: a `/.../` alternation of literals, with or
without the `i` flag. -/
structure CatPattern where
  ci : Bool
  alts : List String
deriving DecidableEq, Repr, Inhabited

/-- `re.test(s)` for a category pattern. -/
def patTest (p : CatPattern) (s : List Char) : Bool :=
  if p.ci then p.alts.any (fun a => hasSubstr (lowerStr a).data (lowerChars s))
  else p.alts.any (fun a => hasSubstr a.data s)
where
  /-- lower-case a character list (JS `toLowerCase` on the tested string). -/
  lowerChars (s : List Char) : List Char := s.map Char.toLower

/-- The `allCats` category table of `deriveLabeledKeyPoints` (each
category holds one alternation regex; `性能` and `研究` carry the `i`
flag). -/
def allCats : List (String × List CatPattern) :=
  [("発表", [CatPattern.mk false
      ["発表", "公開", "ローンチ", "リリース", "提供開始", "アップデート"]]),
   ("導入", [CatPattern.mk false
      ["導入", "使い方", "セットアップ", "手順", "サンプル", "コード",
       "チュートリアル", "GitHub", "インストール"]]),
   ("性能", [CatPattern.mk true
      ["性能", "精度", "スコア", "ベンチマーク", "SOTA", "速度", "高速",
       "低遅延", "throughput", "latency"]]),
   ("影響", [CatPattern.mk false
      ["影響", "価値", "ROI", "コスト", "効率", "生産性", "採用", "事業",
       "ビジネス", "売上", "収益"]]),
   ("研究", [CatPattern.mk true
      ["研究", "論文", "arXiv", "paper", "実験結果", "比較実験"]]),
   ("注意", [CatPattern.mk false
      ["リスク", "注意", "制限", "制約", "課題", "バグ", "脆弱性",
       "既知の問題"]])]

/-- Any of the literal alternatives occurs in the sentence (case-sensitive
alternation regex over a character-list sentence). -/
def anyInclChars (alts : List String) (s : List Char) : Bool :=
  alts.any (fun a => sentIncl s a)

/-- `/[0-9]+(\.[0-9]+)?\s*%/` matches at the head of the list. -/
def hasPercentAt : List Char → Bool
  | [] => false
  | c :: rest =>
    c.isDigit &&
      (let afterInt := (c :: rest).dropWhile Char.isDigit
       let afterFrac :=
         match afterInt with
         | '.' :: r2 =>
           if ((r2.head?.map Char.isDigit).getD false) then r2.dropWhile Char.isDigit
           else afterInt
         | _ => afterInt
       ((afterFrac.dropWhile isJsWs).head? == some '%'))

/-- `/[0-9]+(\.[0-9]+)?\s*%/` matches somewhere in the sentence. -/
def hasPercentNum : List Char → Bool
  | [] => false
  | c :: t => hasPercentAt (c :: t) || hasPercentNum t

/-- The unit alternatives of `/[0-9]+\s*(ms|秒|倍|万|億|x)/i`. -/
def unitAlts : List String := ["ms", "秒", "倍", "万", "億", "x"]

/-- `/[0-9]+\s*(ms|秒|倍|万|億|x)/i` matches at the head of the list. -/
def hasNumUnitAt : List Char → Bool
  | [] => false
  | c :: rest =>
    c.isDigit &&
      (let afterWs := ((c :: rest).dropWhile Char.isDigit).dropWhile isJsWs
       unitAlts.any (fun u => (lowerStr u).data.isPrefixOf (afterWs.map Char.toLower)))

/-- `/[0-9]+\s*(ms|秒|倍|万|億|x)/i` matches somewhere in the sentence. -/
def hasNumUnit : List Char → Bool
  | [] => false
  | c :: t => hasNumUnitAt (c :: t) || hasNumUnit t

/-- `/http(s)?:\/\//` matches somewhere in the sentence. -/
def hasUrl (s : List Char) : Bool :=
  hasSubstr "http://".data s || hasSubstr "https://".data s

/-- The `extraScore` bonus function of `deriveLabeledKeyPoints`. -/
def extraScore (s : List Char) : ℚ :=
  (if hasPercentNum s then 80 else 0)
    + (if hasNumUnit s then 50 else 0)
    + (if hasUrl s then 30 else 0)
    + (if anyInclChars ["GitHub", "コード", "サンプル", "手順", "チュートリアル"] s
       then 60 else 0)
    + (if anyInclChars ["ROI", "コスト", "採用", "収益", "売上"] s then 60 else 0)
    + (s.length : ℚ) / 200

/-- The best-match scan of one category in `deriveLabeledKeyPoints`:
fold over all sentence indices, skip used ones, keep the first index
attaining the maximal `70·(pattern hits) + extraScore`; `(-1, -1)` is the
"nothing found" start state. -/
def bestFor (pats : List CatPattern) (used : List ℕ) (sents : List (List Char)) :
    ℤ × ℚ :=
  (List.range sents.length).foldl
    (fun st i =>
      if used.contains i then st
      else
        let s := sents.getD i []
        if pats.any (fun p => patTest p s) then
          let base : ℚ := pats.foldl (fun acc p => acc + (if patTest p s then 70 else 0)) 0
          let score := base + extraScore s
          if st.2 < score then ((i : ℤ), score) else st
        else st)
    ((-1 : ℤ), (-1 : ℚ))

/-- A `{label, text}` key-point pair (`label = ""` for generic backfill
picks). -/
structure KP where
  label : String
  text : List Char
deriving DecidableEq, Repr, Inhabited

/-- Default key point used with `List.getD`. -/
def dfltKP : KP := default

/-- The category walk of `deriveLabeledKeyPoints`: for each key in the
persona priority order, pick the best unused matching sentence, mark it
used, and stop once `count` results are collected. -/
def catLoop (sents : List (List Char)) (count : ℕ) :
    List String → List ℕ → List KP → List ℕ × List KP
  | [], used, results => (used, results)
  | key :: rest, used, results =>
    let pats := ((allCats.find? (fun c => c.1 = key)).map (fun c => c.2)).getD []
    let b := bestFor pats used sents
    let used1 := if 0 ≤ b.1 then used ++ [b.1.toNat] else used
    let results1 :=
      if 0 ≤ b.1 then results ++ [KP.mk key (sents.getD b.1.toNat [])] else results
    if count ≤ results1.length then (used1, results1)
    else catLoop sents count rest used1 results1

/-- The persona-specific category priority order. -/
def personaOrder : Persona → List String
  | Persona.business => ["発表", "影響", "導入", "性能", "研究", "注意"]
  | Persona.engineer => ["発表", "導入", "性能", "研究", "影響", "注意"]

/-- `deriveLabeledKeyPoints` of `script.js`: category-labeled picks over
the `length > 20` sentences, backfilled by `extractKeyPoints` when fewer
than `count` categories matched, truncated to `count`. -/
def deriveLabeledKeyPoints (persona : Persona) (text : String) (count : ℕ) :
    List KP :=
  let sents := (splitSentences text).filter (fun s => 20 < s.length)
  let results := (catLoop sents count (personaOrder persona) [] []).2
  let results2 :=
    if results.length < count then
      results ++ (extractKeyPoints text (count - results.length)).map (fun p => KP.mk "" p)
    else results
  results2.take count

/-! ### Claim-side predicates and concrete example inputs -/

/-- Default article used with `List.getD`. -/
def dfltArticle : Article := default

/-- Default output record used with `List.getD`. -/
def dfltOutput : OutputItem := default

/-- All five axes of a breakdown lie in `[0, 1]`. -/
def axesIn01 (b : PersonaBreakdown) : Prop :=
  (0 ≤ b.quality ∧ b.quality ≤ 1) ∧ (0 ≤ b.relevance ∧ b.relevance ≤ 1)
    ∧ (0 ≤ b.temporal ∧ b.temporal ≤ 1) ∧ (0 ≤ b.trust ∧ b.trust ≤ 1)
    ∧ (0 ≤ b.actionability ∧ b.actionability ≤ 1)

/-- All five axes of a breakdown lie in `[3/10, 5/10]` (the placeholder
axis range). -/
def axesMidRange (b : PersonaBreakdown) : Prop :=
  (3/10 ≤ b.quality ∧ b.quality ≤ 5/10) ∧ (3/10 ≤ b.relevance ∧ b.relevance ≤ 5/10)
    ∧ (3/10 ≤ b.temporal ∧ b.temporal ≤ 5/10) ∧ (3/10 ≤ b.trust ∧ b.trust ≤ 5/10)
    ∧ (3/10 ≤ b.actionability ∧ b.actionability ≤ 5/10)

/-- Invariant of the category walk: the collected key-point texts are the
sentences at a duplicate-free list of indices, all of which are marked
used. -/
def UsedInv (sents : List (List Char)) (used : List ℕ) (results : List KP) : Prop :=
  ∃ idxs : List ℕ, idxs.Nodup ∧ (∀ i ∈ idxs, i ∈ used)
    ∧ results.map (fun kp => kp.text) = idxs.map (fun i => sents.getD i [])

/-- The trust table of the end-to-end example in the spec
(`{"openai.com": 0.95, "default": 0.5}`). -/
def ex5scores : SourceScores := [("openai.com", 95/100), ("default", 1/2)]

/-- The item of the end-to-end example (published today, hence a parsed
day difference of `0`). -/
def ex5item : EnrichedItem :=
  { id := "ex5"
    title := "OpenAI releases new benchmark-topping model"
    url := "https://openai.com/blog"
    source := "openai.com"
    publishedAt := "2026-10-11"
    publishedParsed := some 0
    tags := []
    summary := ""
    sourceDomain := "openai.com" }

/-- A low-scoring, `skip`-labeled scored item (singleton-input
counterexample for the coverage guarantee). -/
def c2itemA : ScoredItem :=
  { id := "c2a", title := "a", url := "u", source := "s", publishedAt := "2026-01-01",
    publishedParsed := some 0, tags := [], summary := "", sourceDomain := "d",
    score := 10, label := Label.skip, labelReason := none, source_tier := some 2,
    evaluation := none }

/-- A second low-scoring, `skip`-labeled scored item (used by the
coverage-guarantee witness). -/
def c2itemB : ScoredItem :=
  { id := "c2b", title := "b", url := "u", source := "s", publishedAt := "2026-01-01",
    publishedParsed := some 0, tags := [], summary := "", sourceDomain := "d",
    score := 5, label := Label.skip, labelReason := none, source_tier := some 2,
    evaluation := none }

/-- Single-sentence input on which `deriveLabeledKeyPoints` emits the same
sentence twice (once via the `性能` category, once via generic backfill). -/
def ex7text : String := "The new system achieves much lower latency than before."

/-- The character list of the single sentence of `ex7text`. -/
def ex7sent : List Char := ex7text.data

/-- Article whose title/content/source concatenation contains `"bc"`
across a field boundary while no single field does. -/
def c8article : Article :=
  { title := "ab", content := "cd", source := "ef", source_tier := some 1,
    evaluation := none }

/-- Article with no evaluation object at all. -/
def c10noEval : Article :=
  { title := "x", content := "y", source := "z", source_tier := some 1,
    evaluation := none }

/-- Article with a positive engineer evaluation. -/
def c10scored : Article :=
  { title := "p", content := "q", source := "r", source_tier := some 1,
    evaluation := some { engineer := some { total_score := 1 }, business := none } }

/-! ### General lemmas -/

theorem clamp01_nonneg (q : ℚ) : 0 ≤ clamp01 q := le_max_left 0 _

theorem clamp01_le_one (q : ℚ) : clamp01 q ≤ 1 :=
  max_le zero_le_one (min_le_left 1 q)

/-! ### C3 — threshold labeling -/

/-- C3: `labelFromScore` is a pure total function with fixed thresholds:
scores ≥ 80 map to `must_read`, scores in `[60, 80)` to `recommended`,
scores in `[40, 60)` to `consider`, and scores below 40 to `skip` (as a
Lean function it is total and single-valued by construction, so every
score receives exactly one label and there is no unclassified state). -/
theorem claim_C3_label_thresholds (s : ℚ) :
    (80 ≤ s → labelFromScore s = Label.must_read)
    ∧ (60 ≤ s → s < 80 → labelFromScore s = Label.recommended)
    ∧ (40 ≤ s → s < 60 → labelFromScore s = Label.consider)
    ∧ (s < 40 → labelFromScore s = Label.skip) := by
  unfold labelFromScore
  refine ⟨fun h => ?_, fun h1 h2 => ?_, fun h1 h2 => ?_, fun h => ?_⟩ <;>
    split_ifs <;> first | rfl | linarith

/-- C3 witness: the thresholds at the concrete scores 85, 70, 50 and 10. -/
theorem claim_C3_label_thresholds_witness :
    labelFromScore 85 = Label.must_read ∧ labelFromScore 70 = Label.recommended
    ∧ labelFromScore 50 = Label.consider ∧ labelFromScore 10 = Label.skip :=
  ⟨(claim_C3_label_thresholds 85).1 (by norm_num),
   (claim_C3_label_thresholds 70).2.1 (by norm_num) (by norm_num),
   (claim_C3_label_thresholds 50).2.2.1 (by norm_num) (by norm_num),
   (claim_C3_label_thresholds 10).2.2.2 (by norm_num)⟩

/-! ### C4 — temporal decay -/

/-- C4: the freshness weight is monotonically non-increasing in the age in
days, equals 1 at age 0, equals 0 for every age ≥ 30, and is never
negative; a future-dated timestamp (negative dayjs difference) is treated
as age 0, and an unparseable timestamp is treated as age 999, which yields
freshness 0. -/
theorem claim_C4_temporal_decay :
    (∀ d1 d2 : ℤ, d1 ≤ d2 → temporalWeight d2 ≤ temporalWeight d1)
    ∧ temporalWeight 0 = 1
    ∧ (∀ d : ℤ, 30 ≤ d → temporalWeight d = 0)
    ∧ (∀ d : ℤ, 0 ≤ temporalWeight d)
    ∧ (∀ diff : ℤ, diff < 0 → daysFromNow (some diff) = 0)
    ∧ daysFromNow none = 999
    ∧ temporalWeight (daysFromNow none) = 0 := by
  have hmain : ∀ d1 d2 : ℤ, d1 ≤ d2 → temporalWeight d2 ≤ temporalWeight d1 := by
    intro d1 d2 h
    unfold temporalWeight clamp01
    have hc : ((d1 : ℚ)) ≤ (d2 : ℚ) := by exact_mod_cast h
    have h1 : (30 - min 30 (max 0 (d2 : ℚ))) / 30 ≤ (30 - min 30 (max 0 (d1 : ℚ))) / 30 := by
      have hmm : min 30 (max 0 (d1 : ℚ)) ≤ min 30 (max 0 (d2 : ℚ)) :=
        min_le_min le_rfl (max_le_max le_rfl hc)
      have h30 : (0 : ℚ) < 30 := by norm_num
      exact (div_le_div_iff_of_pos_right h30).mpr (by linarith)
    exact max_le_max le_rfl (min_le_min le_rfl h1)
  have hzero : ∀ d : ℤ, 30 ≤ d → temporalWeight d = 0 := by
    intro d hd
    unfold temporalWeight clamp01
    have hdq : (30 : ℚ) ≤ (d : ℚ) := by exact_mod_cast hd
    have hmax : max 0 (d : ℚ) = (d : ℚ) := max_eq_right (by linarith)
    have hmin : min 30 (max 0 (d : ℚ)) = 30 := by rw [hmax]; exact min_eq_left hdq
    rw [hmin]
    norm_num
  refine ⟨hmain, ?_, hzero, fun d => clamp01_nonneg _, fun diff h => ?_, rfl, ?_⟩
  · unfold temporalWeight clamp01
    norm_num
  · simp [daysFromNow, h]
  · rw [show daysFromNow none = 999 from rfl]
    exact hzero 999 (by norm_num)

/-- C4 witness: monotonicity at ages 3 ≤ 5, zero freshness at age 31, and
the future-date and invalid-date fallbacks at concrete inputs. -/
theorem claim_C4_temporal_decay_witness :
    temporalWeight 5 ≤ temporalWeight 3
    ∧ temporalWeight 31 = 0
    ∧ daysFromNow (some (-2)) = 0 :=
  ⟨claim_C4_temporal_decay.1 3 5 (by norm_num),
   claim_C4_temporal_decay.2.2.1 31 (by norm_num),
   claim_C4_temporal_decay.2.2.2.2.1 (-2) (by norm_num)⟩


/-! ### Shared evaluation lemmas -/

theorem temporalWeight_zero : temporalWeight 0 = 1 := by
  unfold temporalWeight clamp01
  norm_num

theorem credLookup_ex5 : credLookup ex5scores "openai.com" = 95/100 := rfl

theorem scoreItem_ex5 : scoreItem ex5item ex5scores = 88 := by
  rw [scoreItem]
  simp +decide only [ex5item, relevanceKw, List.foldl_cons, List.foldl_nil, credLookup_ex5]
  norm_num [jsRound, daysFromNow, Int.floor_eq_iff, min_def, max_def]

theorem ensureAtLeast_singleton_must {x : ScoredItem} (hx : x.label = Label.must_read) :
    ensureAtLeast [x] = [x] := by
  simp [ensureAtLeast, sortIdx, hx, List.find?]

/-! ### C5 — end-to-end example -/

/-- C5: for the concrete item titled "OpenAI releases new benchmark-topping
model" from `openai.com`, published today, scored against the trust table
`{"openai.com": 0.95, "default": 0.5}`: the resolved trust weight is 0.95,
the tier is 1, the temporal freshness is 1, the composite score is 88 ≥ 80,
and the label is `must_read` with no `labelReason` (the coverage guarantee
leaves the singleton set untouched, so the label is earned by threshold,
not by promotion). -/
theorem claim_C5_end_to_end :
    credLookup ex5scores "openai.com" = 19/20
    ∧ determineTier "openai.com" ex5scores = 1
    ∧ (computeEngineerBreakdown ex5item ex5scores).temporal = 1
    ∧ (computeEngineerBreakdown ex5item ex5scores).trust = 19/20
    ∧ scoreItem ex5item ex5scores = 88
    ∧ (80 : ℚ) ≤ scoreItem ex5item ex5scores
    ∧ (scoreOne ex5scores ex5item).label = Label.must_read
    ∧ (ensureAtLeast [scoreOne ex5scores ex5item]).map (fun i => i.labelReason) = [none] := by
  have hlab : (scoreOne ex5scores ex5item).label = Label.must_read := by
    show labelFromScore (scoreItem ex5item ex5scores) = Label.must_read
    rw [scoreItem_ex5, labelFromScore]
    norm_num
  refine ⟨?_, ?_, ?_, ?_, scoreItem_ex5, ?_, hlab, ?_⟩
  · rw [credLookup_ex5]; norm_num
  · rw [determineTier, credLookup_ex5]; norm_num
  · show temporalWeight 0 = 1
    exact temporalWeight_zero
  · show clamp01 (credLookup ex5scores "openai.com") = 19/20
    rw [credLookup_ex5]; norm_num [clamp01]
  · rw [scoreItem_ex5]; norm_num
  · rw [ensureAtLeast_singleton_must hlab]; rfl

/-! ### C1 — total score versus breakdown mean -/

/-- C1 counterexample: scoring an empty input set yields 20 placeholder
items, and the first of them has an engineer `total_score` of 0.45 while
the mean of its engineer breakdown axes is 0.44 — so `total_score` does
not equal the breakdown mean on every item of the scored output. -/
theorem claim_C1_counterexample :
    (∃ o ∈ mainPipeline [] "t" "2026-02-01" [], ∃ ev, o.evaluation = some ev
       ∧ ev.engineer.total_score = 45/100
       ∧ breakdownAvg ev.engineer.breakdown = 44/100)
    ∧ (45/100 : ℚ) ≠ 44/100 := by
  constructor
  · refine ⟨(mainPipeline [] "t" "2026-02-01" []).getD 0 dfltOutput, ?_, ?_⟩
    · have hlen : (mainPipeline [] "t" "2026-02-01" []).length = 20 := rfl
      rw [List.getD_eq_getElem _ _ (by rw [hlen]; norm_num)]
      exact List.getElem_mem _
    · refine ⟨_, rfl, rfl, ?_⟩
      norm_num [breakdownAvg]
  · norm_num

/-- C1 (amended): for every item scored from real input, each of the ten
persona breakdown axes is in [0,1] and, for both personas, `total_score`
equals the mean of the five axes exactly; synthesized placeholder items
also have all axes in [0,1], but their stored `total_score` is the flat
0.45 while the mean of their breakdown axes is 0.44, so the invariant
holds for real items only. -/
theorem claim_C1_total_is_breakdown_mean :
    (∀ (ss : SourceScores) (it : EnrichedItem),
      ∃ ev, (scoreOne ss it).evaluation = some ev
        ∧ ev.engineer.total_score = breakdownAvg ev.engineer.breakdown
        ∧ ev.business.total_score = breakdownAvg ev.business.breakdown
        ∧ axesIn01 ev.engineer.breakdown ∧ axesIn01 ev.business.breakdown)
    ∧ (∀ (ss : SourceScores) (nt ds : String) (i : ℕ),
      ∃ ev, (mkDummy ss nt ds i).evaluation = some ev
        ∧ ev.engineer.total_score = 45/100
        ∧ breakdownAvg ev.engineer.breakdown = 44/100
        ∧ ev.business.total_score = 45/100
        ∧ breakdownAvg ev.business.breakdown = 44/100
        ∧ axesIn01 ev.engineer.breakdown ∧ axesIn01 ev.business.breakdown) := by
  constructor
  · intro ss it
    refine ⟨_, rfl, rfl, rfl, ?_, ?_⟩
    · unfold axesIn01
      exact ⟨⟨clamp01_nonneg _, clamp01_le_one _⟩, ⟨clamp01_nonneg _, clamp01_le_one _⟩,
        ⟨clamp01_nonneg _, clamp01_le_one _⟩, ⟨clamp01_nonneg _, clamp01_le_one _⟩,
        ⟨clamp01_nonneg _, clamp01_le_one _⟩⟩
    · unfold axesIn01
      exact ⟨⟨clamp01_nonneg _, clamp01_le_one _⟩, ⟨clamp01_nonneg _, clamp01_le_one _⟩,
        ⟨clamp01_nonneg _, clamp01_le_one _⟩, ⟨clamp01_nonneg _, clamp01_le_one _⟩,
        ⟨clamp01_nonneg _, clamp01_le_one _⟩⟩
  · intro ss nt ds i
    refine ⟨_, rfl, rfl, ?_, rfl, ?_, ?_, ?_⟩ <;>
      norm_num [breakdownAvg, axesIn01]

/-! ### C9 — serialized output order -/

theorem mapToOutput_scores (l : List ScoredItem) :
    (mapToOutput l).map (fun o => o.score) = l.map (fun i => i.score) := by
  simp [mapToOutput, List.map_map, Function.comp]

/-- C9: the persisted scored-item array (the output of the `main`
pipeline) is always sorted in non-increasing order of composite score,
for every input item set. -/
theorem claim_C9_output_sorted (ss : SourceScores) (nt ds : String)
    (enriched : List EnrichedItem) :
    List.Sorted (fun a b : ℚ => b ≤ a)
      ((mainPipeline ss nt ds enriched).map (fun o => o.score)) := by
  unfold mainPipeline sortScoredDesc
  rw [mapToOutput_scores]
  have hins := @List.sorted_insertionSort ScoredItem (fun a b => b.score ≤ a.score)
      (fun a b => inferInstanceAs (Decidable _))
      ⟨fun a b => le_total b.score a.score⟩
      ⟨fun a b c h1 h2 => le_trans h2 h1⟩
      (padToTwenty ss nt ds (ensureAtLeast (List.map (scoreOne ss) enriched)))
  exact List.Pairwise.map _ (fun a b h => h) hins

/-! ### C6 — minimum-count padding -/

theorem getD_map_range {α : Type} (f : ℕ → α) (n k : ℕ) (d : α) (h : k < n) :
    ((List.range n).map f).getD k d = f k := by
  rw [List.getD_eq_getElem _ _ (by simpa using h), List.getElem_map, List.getElem_range]

/-- C6: when fewer than 20 items are supplied, the output is padded to
exactly 20 with placeholder items, each tag-marked `placeholder`, labeled
`consider`, carrying the fixed composite score 45 and a flat 0.45 total
score on both persona breakdowns with every axis between 0.3 and 0.5;
item sets of 20 or more are left unchanged. -/
theorem claim_C6_padding (ss : SourceScores) (nt ds : String)
    (scored : List ScoredItem) :
    (scored.length < 20 →
      (padToTwenty ss nt ds scored).length = 20
      ∧ ∀ j, scored.length ≤ j → j < 20 →
          ((padToTwenty ss nt ds scored).getD j dfltScored).tags = ["placeholder"]
          ∧ ((padToTwenty ss nt ds scored).getD j dfltScored).label = Label.consider
          ∧ ((padToTwenty ss nt ds scored).getD j dfltScored).score = 45
          ∧ ∃ ev, ((padToTwenty ss nt ds scored).getD j dfltScored).evaluation = some ev
              ∧ ev.engineer.total_score = 45/100 ∧ ev.business.total_score = 45/100
              ∧ axesMidRange ev.engineer.breakdown ∧ axesMidRange ev.business.breakdown)
    ∧ (20 ≤ scored.length → padToTwenty ss nt ds scored = scored) := by
  constructor
  · intro h
    have hpad : padToTwenty ss nt ds scored =
        scored ++ (List.range (20 - scored.length)).map (mkDummy ss nt ds) := by
      rw [padToTwenty, if_pos h]
    constructor
    · rw [hpad]
      simp only [List.length_append, List.length_map, List.length_range]
      omega
    · intro j hj1 hj2
      have hget : (padToTwenty ss nt ds scored).getD j dfltScored =
          mkDummy ss nt ds (j - scored.length) := by
        rw [hpad, List.getD_append_right _ _ _ _ hj1, getD_map_range _ _ _ _ (by omega)]
      rw [hget]
      refine ⟨rfl, rfl, rfl, _, rfl, rfl, rfl, ?_, ?_⟩ <;>
        norm_num [axesMidRange]
  · intro h
    rw [padToTwenty, if_neg (by omega)]

/-- C6 witness: padding the empty set produces 20 items whose first
element is a tagged `consider` placeholder. -/
theorem claim_C6_padding_witness :
    (padToTwenty [] "t" "d" []).length = 20
    ∧ ((padToTwenty [] "t" "d" []).getD 0 dfltScored).tags = ["placeholder"]
    ∧ ((padToTwenty [] "t" "d" []).getD 0 dfltScored).label = Label.consider :=
  ⟨((claim_C6_padding [] "t" "d" []).1 (by norm_num)).1,
   (((claim_C6_padding [] "t" "d" []).1 (by norm_num)).2 0 (by simp) (by norm_num)).1,
   (((claim_C6_padding [] "t" "d" []).1 (by norm_num)).2 0 (by simp) (by norm_num)).2.1⟩

/-! ### C2 — coverage-guarantee machinery -/


theorem setLabelAt_length (l : List ScoredItem) (n : ℕ) (lab : Label) (r : String) :
    (setLabelAt l n lab r).length = l.length := by
  induction l generalizing n with
  | nil => rfl
  | cons x t ih =>
    cases n with
    | zero => rfl
    | succ m => simp only [setLabelAt, List.length_cons, ih]

theorem getD_mem_of_lt {α : Type} (l : List α) (n : ℕ) (d : α) (h : n < l.length) :
    l.getD n d ∈ l := by
  rw [List.getD_eq_getElem _ _ h]
  exact List.getElem_mem h

theorem getD_setLabelAt_ne (l : List ScoredItem) (m n : ℕ) (lab : Label) (r : String)
    (h : m ≠ n) : (setLabelAt l n lab r).getD m dfltScored = l.getD m dfltScored := by
  induction l generalizing m n with
  | nil => rfl
  | cons x t ih =>
    cases n with
    | zero =>
      cases m with
      | zero => exact absurd rfl h
      | succ m2 => simp only [setLabelAt, List.getD_cons_succ]
    | succ n2 =>
      cases m with
      | zero => simp only [setLabelAt, List.getD_cons_zero]
      | succ m2 =>
        simp only [setLabelAt, List.getD_cons_succ]
        exact ih m2 n2 (fun hh => h (by rw [hh]))

theorem getD_setLabelAt_self (l : List ScoredItem) (n : ℕ) (lab : Label) (r : String)
    (h : n < l.length) :
    ((setLabelAt l n lab r).getD n dfltScored).label = lab
    ∧ ((setLabelAt l n lab r).getD n dfltScored).labelReason = some r := by
  induction l generalizing n with
  | nil => simp at h
  | cons x t ih =>
    cases n with
    | zero => simp [setLabelAt, List.getD_cons_zero]
    | succ m =>
      simp only [setLabelAt, List.getD_cons_succ]
      exact ih m (by simpa using h)

theorem sortIdx_perm (items : List ScoredItem) :
    (sortIdx items).Perm (List.range items.length) :=
  List.perm_insertionSort _ _

theorem mem_sortIdx {items : List ScoredItem} {i : ℕ} :
    i ∈ sortIdx items ↔ i < items.length := by
  rw [(sortIdx_perm items).mem_iff, List.mem_range]

theorem ensureAtLeast_exists_must (items : List ScoredItem) (hne : items ≠ []) :
    ∃ x ∈ ensureAtLeast items, x.label = Label.must_read := by
  by_cases hM : items.any (fun i => i.label == Label.must_read) = true
  · obtain ⟨x, hxmem, hx⟩ := List.any_eq_true.mp hM
    have hxlab : x.label = Label.must_read := by simpa using hx
    by_cases hR : items.any (fun i => i.label == Label.recommended) = true
    · have heq : ensureAtLeast items = items := by
        simp only [ensureAtLeast, hM, hR, if_true]
      rw [heq]
      exact ⟨x, hxmem, hxlab⟩
    · rw [Bool.not_eq_true] at hR
      cases hf : (sortIdx items).find?
          (fun i => !((items.getD i dfltScored).label == Label.must_read)) with
      | none =>
        have heq : ensureAtLeast items = items := by
          simp only [ensureAtLeast, hM, hR, if_true, Bool.false_eq_true, if_false, hf]
        rw [heq]
        exact ⟨x, hxmem, hxlab⟩
      | some nxt =>
        have heq : ensureAtLeast items =
            setLabelAt items nxt Label.recommended
              "fallback_promoted_second_to_recommended" := by
          simp only [ensureAtLeast, hM, hR, if_true, Bool.false_eq_true, if_false, hf]
        have hp := List.find?_some hf
        rw [Bool.not_eq_true'] at hp
        have hpne : (items.getD nxt dfltScored).label ≠ Label.must_read := by
          simpa using hp
        obtain ⟨m, hm, hxm⟩ := List.mem_iff_getElem.mp hxmem
        have hmn : m ≠ nxt := by
          intro he
          apply hpne
          rw [← he, List.getD_eq_getElem _ _ hm, hxm]
          exact hxlab
        rw [heq]
        refine ⟨(setLabelAt items nxt Label.recommended
          "fallback_promoted_second_to_recommended").getD m dfltScored, ?_, ?_⟩
        · exact getD_mem_of_lt _ _ _ (by rw [setLabelAt_length]; exact hm)
        · rw [getD_setLabelAt_ne _ _ _ _ _ hmn, List.getD_eq_getElem _ _ hm, hxm]
          exact hxlab
  · rw [Bool.not_eq_true] at hM
    have hlen : 0 < items.length := by
      cases items with
      | nil => exact absurd rfl hne
      | cons _ _ => simp
    cases hs : sortIdx items with
    | nil =>
      exfalso
      have : (0 : ℕ) ∈ sortIdx items := mem_sortIdx.mpr hlen
      rw [hs] at this
      simp at this
    | cons top rest =>
      have htop : top < items.length := mem_sortIdx.mp (by rw [hs]; exact List.mem_cons_self top rest)
      have htoplab : ((setLabelAt items top Label.must_read
          "fallback_promoted_top_to_must_read").getD top dfltScored).label =
          Label.must_read := (getD_setLabelAt_self _ _ _ _ htop).1
      have hlen1 : (setLabelAt items top Label.must_read
          "fallback_promoted_top_to_must_read").length = items.length := setLabelAt_length _ _ _ _
      by_cases hR : items.any (fun i => i.label == Label.recommended) = true
      · have heq : ensureAtLeast items = setLabelAt items top Label.must_read
            "fallback_promoted_top_to_must_read" := by
          simp only [ensureAtLeast, hM, hR, Bool.false_eq_true, if_false, hs, if_true]
        rw [heq]
        exact ⟨_, getD_mem_of_lt _ top _ (by rw [setLabelAt_length]; exact htop), htoplab⟩
      · rw [Bool.not_eq_true] at hR
        cases hf : (top :: rest).find?
            (fun i => !(((setLabelAt items top Label.must_read
              "fallback_promoted_top_to_must_read").getD i dfltScored).label ==
                Label.must_read)) with
        | none =>
          have heq : ensureAtLeast items = setLabelAt items top Label.must_read
              "fallback_promoted_top_to_must_read" := by
            simp only [ensureAtLeast, hM, hR, Bool.false_eq_true, if_false, hs, hf]
          rw [heq]
          exact ⟨_, getD_mem_of_lt _ top _ (by rw [setLabelAt_length]; exact htop), htoplab⟩
        | some nxt =>
          have heq : ensureAtLeast items =
              setLabelAt (setLabelAt items top Label.must_read
                "fallback_promoted_top_to_must_read") nxt Label.recommended
                "fallback_promoted_second_to_recommended" := by
            simp only [ensureAtLeast, hM, hR, Bool.false_eq_true, if_false, hs, hf]
          have hp := List.find?_some hf
          rw [Bool.not_eq_true'] at hp
          have hpne : ((setLabelAt items top Label.must_read
              "fallback_promoted_top_to_must_read").getD nxt dfltScored).label ≠
              Label.must_read := by simpa using hp
          have hne2 : top ≠ nxt := fun he => hpne (he ▸ htoplab)
          rw [heq]
          refine ⟨(setLabelAt (setLabelAt items top Label.must_read
              "fallback_promoted_top_to_must_read") nxt Label.recommended
              "fallback_promoted_second_to_recommended").getD top dfltScored,
            getD_mem_of_lt _ top dfltScored
              (by rw [setLabelAt_length, setLabelAt_length]; exact htop), ?_⟩
          rw [getD_setLabelAt_ne _ _ _ _ _ hne2]
          exact htoplab

theorem ensureAtLeast_exists_rec (items : List ScoredItem)
    (hnoRec : ¬ ∃ x ∈ items, x.label = Label.recommended)
    (hex : ∃ x ∈ ensureAtLeast items, x.label ≠ Label.must_read) :
    ∃ x ∈ ensureAtLeast items, x.label = Label.recommended := by
  have hR : items.any (fun i => i.label == Label.recommended) = false := by
    by_contra hbc
    rw [Bool.not_eq_false, List.any_eq_true] at hbc
    obtain ⟨x, hx1, hx2⟩ := hbc
    exact hnoRec ⟨x, hx1, by simpa using hx2⟩
  by_cases hM : items.any (fun i => i.label == Label.must_read) = true
  · cases hf : (sortIdx items).find?
        (fun i => !((items.getD i dfltScored).label == Label.must_read)) with
    | some nxt =>
      have heq : ensureAtLeast items = setLabelAt items nxt Label.recommended
          "fallback_promoted_second_to_recommended" := by
        simp only [ensureAtLeast, hM, hR, if_true, Bool.false_eq_true, if_false, hf]
      have hnxt : nxt < items.length := mem_sortIdx.mp (List.mem_of_find?_eq_some hf)
      rw [heq]
      exact ⟨_, getD_mem_of_lt _ nxt dfltScored (by rw [setLabelAt_length]; exact hnxt),
        (getD_setLabelAt_self _ _ _ _ hnxt).1⟩
    | none =>
      have heq : ensureAtLeast items = items := by
        simp only [ensureAtLeast, hM, hR, if_true, Bool.false_eq_true, if_false, hf]
      exfalso
      rw [heq] at hex
      obtain ⟨x, hxmem, hxlab⟩ := hex
      obtain ⟨m, hm, hxm⟩ := List.mem_iff_getElem.mp hxmem
      have hmm : m ∈ sortIdx items := mem_sortIdx.mpr hm
      have hnone := List.find?_eq_none.mp hf m hmm
      have hlabm : (items.getD m dfltScored).label = Label.must_read := by
        simpa using hnone
      rw [List.getD_eq_getElem _ _ hm, hxm] at hlabm
      exact hxlab hlabm
  · rw [Bool.not_eq_true] at hM
    cases hs : sortIdx items with
    | nil =>
      have hnil : items = [] := by
        have hlen0 : items.length = 0 := by
          have hp := sortIdx_perm items
          rw [hs] at hp
          have hle := hp.length_eq
          simpa using hle.symm
        exact List.length_eq_zero.mp hlen0
      have heq : ensureAtLeast items = items := by
        simp only [ensureAtLeast, hM, hR, Bool.false_eq_true, if_false, hs, List.find?_nil]
      exfalso
      rw [heq, hnil] at hex
      simp at hex
    | cons top rest =>
      have htop : top < items.length :=
        mem_sortIdx.mp (by rw [hs]; exact List.mem_cons_self top rest)
      cases hf : (top :: rest).find?
          (fun i => !(((setLabelAt items top Label.must_read
            "fallback_promoted_top_to_must_read").getD i dfltScored).label ==
              Label.must_read)) with
      | some nxt =>
        have heq : ensureAtLeast items =
            setLabelAt (setLabelAt items top Label.must_read
              "fallback_promoted_top_to_must_read") nxt Label.recommended
              "fallback_promoted_second_to_recommended" := by
          simp only [ensureAtLeast, hM, hR, Bool.false_eq_true, if_false, hs, hf]
        have hnxt : nxt < items.length := by
          have hmemn := List.mem_of_find?_eq_some hf
          rw [← hs] at hmemn
          exact mem_sortIdx.mp hmemn
        rw [heq]
        exact ⟨_, getD_mem_of_lt _ nxt dfltScored
            (by rw [setLabelAt_length, setLabelAt_length]; exact hnxt),
          (getD_setLabelAt_self _ _ _ _ (by rw [setLabelAt_length]; exact hnxt)).1⟩
      | none =>
        have heq : ensureAtLeast items = setLabelAt items top Label.must_read
            "fallback_promoted_top_to_must_read" := by
          simp only [ensureAtLeast, hM, hR, Bool.false_eq_true, if_false, hs, hf]
        exfalso
        rw [heq] at hex
        obtain ⟨x, hxmem, hxlab⟩ := hex
        obtain ⟨m, hm, hxm⟩ := List.mem_iff_getElem.mp hxmem
        have hm2 : m < items.length := by
          rw [setLabelAt_length] at hm
          exact hm
        have hmm : m ∈ (top :: rest) := by
          rw [← hs]
          exact mem_sortIdx.mpr hm2
        have hnone := List.find?_eq_none.mp hf m hmm
        have hlabm : ((setLabelAt items top Label.must_read
            "fallback_promoted_top_to_must_read").getD m dfltScored).label =
            Label.must_read := by simpa using hnone
        rw [List.getD_eq_getElem _ _ hm, hxm] at hlabm
        exact hxlab hlabm

/-- C2 counterexample: on the non-empty singleton input holding one
low-scoring `skip` item, the coverage guarantee promotes that item to
`must_read` and leaves no item labeled `recommended`, so the claimed
"at least one different item carries `recommended`" fails. -/
theorem claim_C2_counterexample :
    (ensureAtLeast [c2itemA]).map (fun i => i.label) = [Label.must_read]
    ∧ ∀ x ∈ ensureAtLeast [c2itemA], x.label ≠ Label.recommended := by
  decide

/-- C2 (amended): after the coverage-guarantee step on a non-empty item
set, at least one item carries `must_read`; and whenever no item carried
`recommended` before the step and some item still carries a label other
than `must_read` afterwards, at least one item carries `recommended`.
(The unconditional claim fails, e.g. on a singleton set, where the only
item is promoted to `must_read` and no second item exists.) -/
theorem claim_C2_coverage (items : List ScoredItem) (hne : items ≠ []) :
    (∃ x ∈ ensureAtLeast items, x.label = Label.must_read)
    ∧ ((¬ ∃ x ∈ items, x.label = Label.recommended) →
       (∃ x ∈ ensureAtLeast items, x.label ≠ Label.must_read) →
       ∃ x ∈ ensureAtLeast items, x.label = Label.recommended) :=
  ⟨ensureAtLeast_exists_must items hne,
   fun h1 h2 => ensureAtLeast_exists_rec items h1 h2⟩

/-- C2 witness: on a concrete two-item all-`skip` set, the coverage
guarantee produces both a `must_read` and a `recommended` item. -/
theorem claim_C2_coverage_witness :
    (∃ x ∈ ensureAtLeast [c2itemA, c2itemB], x.label = Label.must_read)
    ∧ (∃ x ∈ ensureAtLeast [c2itemA, c2itemB], x.label = Label.recommended) :=
  ⟨(claim_C2_coverage [c2itemA, c2itemB] (by decide)).1,
   (claim_C2_coverage [c2itemA, c2itemB] (by decide)).2 (by decide) (by decide)⟩

/-! ### C8 — presentation filter -/

/-- C8 counterexample: with tier filter `all`, minimum score 0 and query
"BC", the article with title "ab", content "cd", source "ef" passes the
filter (the lowercased query "bc" occurs in the concatenation
"abcdef"), yet "bc" is a substring of none of the three fields — so
"substring of the item's title, body, or source" mis-states the
predicate. -/
theorem claim_C8_counterexample :
    applyFilters none 0 "BC" Persona.engineer [c8article] = [c8article]
    ∧ strIncludes (lowerStr c8article.title) (lowerStr "BC") = false
    ∧ strIncludes (lowerStr c8article.content) (lowerStr "BC") = false
    ∧ strIncludes (lowerStr c8article.source) (lowerStr "BC") = false := by
  decide

/-- C8 (amended): an article passes `applyFilters` iff its tier matches
the tier filter (or the filter is `all`), its active-persona score is at
least the minimum-score threshold, and, when a non-empty query is given,
the lowercased query is a substring of the lowercased *concatenation* of
title, content and source (not necessarily of any single field). -/
theorem claim_C8_filter_predicate (tierFilter : Option ℤ) (minScore : ℚ)
    (searchRaw : String) (persona : Persona) (articles : List Article) (a : Article) :
    a ∈ applyFilters tierFilter minScore searchRaw persona articles ↔
      a ∈ articles
      ∧ (∀ t, tierFilter = some t → a.source_tier = some t)
      ∧ minScore ≤ getPersonaScore persona a
      ∧ (lowerStr searchRaw = "" ∨
          strIncludes (lowerStr (a.title ++ a.content ++ a.source))
            (lowerStr searchRaw) = true) := by
  simp only [applyFilters, List.mem_filter]
  cases tierFilter with
  | none => simp [not_lt, and_assoc]
  | some t => simp [not_lt, and_assoc]

/-! ### C10 — missing persona evaluation -/

/-- C10: an article lacking an evaluation entry for the active persona
gets persona score exactly 0 (no error); it is excluded by any
minimum-score filter with a positive threshold; and in the persona-sorted
order it appears after every article with a positive persona score. -/
theorem claim_C10_missing_eval :
    (∀ (p : Persona) (a : Article), lacksEval p a = true → getPersonaScore p a = 0)
    ∧ (∀ (p : Persona) (a : Article) (tf : Option ℤ) (ms : ℚ) (sr : String)
        (arts : List Article), lacksEval p a = true → 0 < ms →
        a ∉ applyFilters tf ms sr p arts)
    ∧ (∀ (p : Persona) (l : List Article) (i j : ℕ),
        i < (sortByPersonaDesc p l).length → j < (sortByPersonaDesc p l).length →
        lacksEval p ((sortByPersonaDesc p l).getD i dfltArticle) = true →
        0 < getPersonaScore p ((sortByPersonaDesc p l).getD j dfltArticle) →
        j < i) := by
  have hzero : ∀ (p : Persona) (a : Article), lacksEval p a = true →
      getPersonaScore p a = 0 := by
    intro p a h
    unfold lacksEval at h
    unfold getPersonaScore
    cases hev : a.evaluation with
    | none => rfl
    | some ev =>
      simp only [hev] at h ⊢
      cases hg : evalGet ev p with
      | none => rfl
      | some e =>
        rw [hg] at h
        simp at h
  refine ⟨hzero, ?_, ?_⟩
  · intro p a tf ms sr arts hl hms hmem
    simp only [applyFilters, List.mem_filter] at hmem
    have h2 := hmem.2
    simp only [Bool.and_eq_true] at h2
    have h3 := h2.1.2
    rw [Bool.not_eq_true', decide_eq_false_iff_not] at h3
    exact h3 (by rw [hzero p a hl]; exact hms)
  · intro p l i j hi hj hlacks hpos
    by_contra hij
    push_neg at hij
    have hsorted : List.Sorted
        (fun a b => getPersonaScore p b ≤ getPersonaScore p a)
        (sortByPersonaDesc p l) :=
      @List.sorted_insertionSort Article
        (fun a b => getPersonaScore p b ≤ getPersonaScore p a)
        (fun a b => inferInstanceAs (Decidable _))
        ⟨fun a b => le_total _ _⟩ ⟨fun a b c h1 h2 => le_trans h2 h1⟩ l
    rw [List.getD_eq_getElem _ _ hi] at hlacks
    rw [List.getD_eq_getElem _ _ hj] at hpos
    have hz := hzero p _ hlacks
    rcases eq_or_lt_of_le hij with heq | hlt
    · subst heq
      exact absurd (lt_of_lt_of_le hpos (le_of_eq hz)) (lt_irrefl 0)
    · have hrel := (List.pairwise_iff_getElem.mp hsorted) i j hi hj hlt
      exact absurd (lt_of_lt_of_le hpos (le_trans hrel (le_of_eq hz))) (lt_irrefl 0)

/-- C10 witness: the evaluation-free article scores 0, is dropped by a
0.5 minimum-score filter, and sorts after the positively scored article
(index 0 versus index 1 in the sorted order). -/
theorem claim_C10_missing_eval_witness :
    getPersonaScore Persona.engineer c10noEval = 0
    ∧ c10noEval ∉ applyFilters none (1/2) "" Persona.engineer [c10noEval, c10scored]
    ∧ (0 : ℕ) < 1 :=
  ⟨claim_C10_missing_eval.1 Persona.engineer c10noEval (by decide),
   claim_C10_missing_eval.2.1 Persona.engineer c10noEval none (1/2) ""
     [c10noEval, c10scored] (by decide) (by norm_num),
   claim_C10_missing_eval.2.2 Persona.engineer [c10noEval, c10scored] 1 0
     (by decide) (by decide) (by decide) (by decide)⟩

/-! ### C7 — key-point extraction machinery -/


theorem bestFor_fresh (pats : List CatPattern) (used : List ℕ) (sents : List (List Char)) :
    (bestFor pats used sents).1 = -1
    ∨ (0 ≤ (bestFor pats used sents).1
        ∧ used.contains (bestFor pats used sents).1.toNat = false) := by
  unfold bestFor
  generalize List.range sents.length = l
  suffices h : ∀ (l : List ℕ) (st : ℤ × ℚ),
      (st.1 = -1 ∨ (0 ≤ st.1 ∧ used.contains st.1.toNat = false)) →
      ((List.foldl (fun st i =>
          if used.contains i then st
          else
            let s := sents.getD i []
            if pats.any (fun p => patTest p s) then
              let base : ℚ := pats.foldl (fun acc p => acc + (if patTest p s then 70 else 0)) 0
              let score := base + extraScore s
              if st.2 < score then ((i : ℤ), score) else st
            else st) st l).1 = -1
        ∨ (0 ≤ (List.foldl (fun st i =>
          if used.contains i then st
          else
            let s := sents.getD i []
            if pats.any (fun p => patTest p s) then
              let base : ℚ := pats.foldl (fun acc p => acc + (if patTest p s then 70 else 0)) 0
              let score := base + extraScore s
              if st.2 < score then ((i : ℤ), score) else st
            else st) st l).1
          ∧ used.contains (List.foldl (fun st i =>
          if used.contains i then st
          else
            let s := sents.getD i []
            if pats.any (fun p => patTest p s) then
              let base : ℚ := pats.foldl (fun acc p => acc + (if patTest p s then 70 else 0)) 0
              let score := base + extraScore s
              if st.2 < score then ((i : ℤ), score) else st
            else st) st l).1.toNat = false)) by
    exact h l ((-1 : ℤ), (-1 : ℚ)) (Or.inl rfl)
  intro l
  induction l with
  | nil => intro st h; exact h
  | cons x xs ih =>
    intro st h
    rw [List.foldl_cons]
    apply ih
    by_cases hc : used.contains x = true
    · rw [if_pos hc]
      exact h
    · rw [Bool.not_eq_true] at hc
      rw [if_neg (by rw [hc]; exact Bool.false_ne_true)]
      dsimp only
      split_ifs with h1 h2
      · exact Or.inr ⟨Int.natCast_nonneg x, by simpa using hc⟩
      · exact h
      · exact h

theorem catLoop_labels (sents : List (List Char)) (count : ℕ) :
    ∀ (keys : List String) (used : List ℕ) (results : List KP),
      (∀ kp ∈ results, kp.label ≠ "") → (∀ k ∈ keys, k ≠ "") →
      ∀ kp ∈ (catLoop sents count keys used results).2, kp.label ≠ "" := by
  intro keys
  induction keys with
  | nil =>
    intro used results hres _ kp hkp
    exact hres kp hkp
  | cons key rest ih =>
    intro used results hres hkeys kp hkp
    simp only [catLoop] at hkp
    by_cases hb : 0 ≤ (bestFor (((allCats.find? (fun c => c.1 = key)).map
        (fun c => c.2)).getD []) used sents).1
    · rw [if_pos hb, if_pos hb] at hkp
      have hres1 : ∀ kp2 ∈ results ++ [KP.mk key ((sents.getD (bestFor
          (((allCats.find? (fun c => c.1 = key)).map (fun c => c.2)).getD [])
            used sents).1.toNat []))], kp2.label ≠ "" := by
        intro kp2 hkp2
        rcases List.mem_append.mp hkp2 with hin | hin
        · exact hres kp2 hin
        · rw [List.mem_singleton.mp hin]
          exact hkeys key (List.mem_cons_self key rest)
      split_ifs at hkp with hstop
      · exact hres1 kp hkp
      · exact ih _ _ hres1 (fun k hk => hkeys k (List.mem_cons_of_mem key hk)) kp hkp
    · rw [if_neg hb, if_neg hb] at hkp
      split_ifs at hkp with hstop
      · exact hres kp hkp
      · exact ih _ _ hres (fun k hk => hkeys k (List.mem_cons_of_mem key hk)) kp hkp

theorem catLoop_usedInv (sents : List (List Char)) (count : ℕ) :
    ∀ (keys : List String) (used : List ℕ) (results : List KP),
      UsedInv sents used results →
      UsedInv sents (catLoop sents count keys used results).1
        (catLoop sents count keys used results).2 := by
  intro keys
  induction keys with
  | nil =>
    intro used results h
    exact h
  | cons key rest ih =>
    intro used results h
    simp only [catLoop]
    by_cases hb : 0 ≤ (bestFor (((allCats.find? (fun c => c.1 = key)).map
        (fun c => c.2)).getD []) used sents).1
    · rw [if_pos hb, if_pos hb]
      have hfresh : used.contains (bestFor (((allCats.find? (fun c => c.1 = key)).map
          (fun c => c.2)).getD []) used sents).1.toNat = false := by
        rcases bestFor_fresh (((allCats.find? (fun c => c.1 = key)).map
            (fun c => c.2)).getD []) used sents with hm1 | hm2
        · exfalso
          rw [hm1] at hb
          norm_num at hb
        · exact hm2.2
      have hnotmem : (bestFor (((allCats.find? (fun c => c.1 = key)).map
          (fun c => c.2)).getD []) used sents).1.toNat ∉ used := by
        intro hmem
        have := List.elem_iff.mpr hmem
        rw [show List.elem _ used = used.contains _ from rfl, hfresh] at this
        exact Bool.false_ne_true this
      obtain ⟨idxs, hnd, hmemu, hmap⟩ := h
      have hinv1 : UsedInv sents
          (used ++ [(bestFor (((allCats.find? (fun c => c.1 = key)).map
            (fun c => c.2)).getD []) used sents).1.toNat])
          (results ++ [KP.mk key ((sents.getD (bestFor
            (((allCats.find? (fun c => c.1 = key)).map (fun c => c.2)).getD [])
              used sents).1.toNat []))]) := by
        refine ⟨idxs ++ [(bestFor (((allCats.find? (fun c => c.1 = key)).map
          (fun c => c.2)).getD []) used sents).1.toNat], ?_, ?_, ?_⟩
        · rw [List.nodup_append]
          refine ⟨hnd, List.nodup_singleton _, ?_⟩
          intro a ha hb2
          rw [List.mem_singleton.mp hb2] at ha
          exact hnotmem (hmemu _ ha)
        · intro i hi
          rcases List.mem_append.mp hi with hin | hin
          · exact List.mem_append_left _ (hmemu i hin)
          · exact List.mem_append_right _ hin
        · rw [List.map_append, List.map_append, hmap]
          rfl
      split_ifs with hstop
      · exact hinv1
      · exact ih _ _ hinv1
    · rw [if_neg hb, if_neg hb]
      split_ifs with hstop
      · exact h
      · exact ih _ _ h

theorem append_label_prefix (A B : List KP) (n i j : ℕ)
    (hA : ∀ kp ∈ A, kp.label ≠ "") (hB : ∀ kp ∈ B, kp.label = "")
    (hij : i ≤ j) (hj : j < ((A ++ B).take n).length)
    (hi : (((A ++ B).take n).getD i dfltKP).label = "") :
    (((A ++ B).take n).getD j dfltKP).label = "" := by
  have hi2 : i < ((A ++ B).take n).length := lt_of_le_of_lt hij hj
  rw [List.getD_eq_getElem _ _ hi2] at hi
  rw [List.getD_eq_getElem _ _ hj]
  rw [List.getElem_take] at hi ⊢
  have hiA : ¬ i < A.length := by
    intro hlt
    rw [List.getElem_append_left hlt] at hi
    exact hA _ (List.getElem_mem hlt) hi
  push_neg at hiA
  rw [List.getElem_append_right (le_trans hiA hij)]
  exact hB _ (List.getElem_mem _)

theorem take_append_filter_ne (A B : List KP) (n : ℕ)
    (hA : ∀ kp ∈ A, kp.label ≠ "") (hB : ∀ kp ∈ B, kp.label = "") :
    ((A ++ B).take n).filter (fun kp => !(kp.label == "")) = A.take n := by
  rw [List.take_append_eq_append_take, List.filter_append]
  have h1 : (A.take n).filter (fun kp => !(kp.label == "")) = A.take n :=
    List.filter_eq_self.mpr (fun a ha => by
      simpa using hA a (List.mem_of_mem_take ha))
  have h2 : ((B.take (n - A.length)).filter (fun kp => !(kp.label == ""))) = [] :=
    List.filter_eq_nil_iff.mpr (fun a ha => by
      simp [hB a (List.mem_of_mem_take ha)])
  rw [h1, h2, List.append_nil]

theorem derive_shape (p : Persona) (text : String) (count : ℕ) :
    ∃ G : List KP, (∀ kp ∈ G, kp.label = "") ∧
      deriveLabeledKeyPoints p text count =
        ((catLoop ((splitSentences text).filter (fun s => 20 < s.length))
          count (personaOrder p) [] []).2 ++ G).take count := by
  by_cases hlt : (catLoop ((splitSentences text).filter (fun s => 20 < s.length))
      count (personaOrder p) [] []).2.length < count
  · refine ⟨(extractKeyPoints text (count - (catLoop ((splitSentences text).filter
      (fun s => 20 < s.length)) count (personaOrder p) [] []).2.length)).map
        (fun q => KP.mk "" q), ?_, ?_⟩
    · intro kp hkp
      obtain ⟨q, hq, rfl⟩ := List.mem_map.mp hkp
      rfl
    · simp only [deriveLabeledKeyPoints]
      rw [if_pos hlt]
  · refine ⟨[], by simp, ?_⟩
    simp only [deriveLabeledKeyPoints]
    rw [if_neg hlt, List.append_nil]

/-- C7 (amended): for every input text and requested count N, key-point
extraction returns at most N `{label, text}` entries; category-labeled
picks precede generic unlabeled backfill picks; and the category-labeled
picks draw on pairwise-distinct sentence occurrences (a duplicate-free
index list into the sentence list).  The generic backfill, however,
re-ranks all sufficiently long sentences regardless of category use and
may therefore repeat a sentence already used by a category match. -/
theorem claim_C7_extraction (p : Persona) (text : String) (count : ℕ) :
    (deriveLabeledKeyPoints p text count).length ≤ count
    ∧ (∀ i j, i ≤ j → j < (deriveLabeledKeyPoints p text count).length →
        ((deriveLabeledKeyPoints p text count).getD i dfltKP).label = "" →
        ((deriveLabeledKeyPoints p text count).getD j dfltKP).label = "")
    ∧ (∃ idxs : List ℕ, idxs.Nodup ∧
        ((deriveLabeledKeyPoints p text count).filter
          (fun kp => !(kp.label == ""))).map (fun kp => kp.text) =
        idxs.map (fun i =>
          ((splitSentences text).filter (fun s => 20 < s.length)).getD i [])) := by
  have horder : ∀ k ∈ personaOrder p, k ≠ "" := by
    cases p <;> decide
  have hlabels : ∀ kp ∈ (catLoop ((splitSentences text).filter (fun s => 20 < s.length))
      count (personaOrder p) [] []).2, kp.label ≠ "" :=
    catLoop_labels _ _ _ [] [] (by simp) horder
  have hinv : UsedInv ((splitSentences text).filter (fun s => 20 < s.length))
      (catLoop ((splitSentences text).filter (fun s => 20 < s.length))
        count (personaOrder p) [] []).1
      (catLoop ((splitSentences text).filter (fun s => 20 < s.length))
        count (personaOrder p) [] []).2 :=
    catLoop_usedInv _ _ _ [] [] ⟨[], List.nodup_nil, by simp, by simp⟩
  obtain ⟨idxs, hnd, hmemu, hmap⟩ := hinv
  obtain ⟨G, hG, hEq⟩ := derive_shape p text count
  refine ⟨?_, ?_, ?_⟩
  · rw [hEq, List.length_take]
    exact min_le_left _ _
  · intro i j hij hj hi
    rw [hEq] at hj hi ⊢
    exact append_label_prefix _ G count i j hlabels hG hij hj hi
  · refine ⟨idxs.take count, List.Nodup.sublist (List.take_sublist _ _) hnd, ?_⟩
    rw [hEq, take_append_filter_ne _ _ _ hlabels hG, List.map_take, hmap, List.map_take]

theorem extraScore_nonneg (s : List Char) : 0 ≤ extraScore s := by
  unfold extraScore
  split_ifs <;> positivity

theorem patBase_nonneg (pats : List CatPattern) (s : List Char) :
    0 ≤ pats.foldl (fun acc p => acc + (if patTest p s then (70 : ℚ) else 0)) 0 := by
  suffices h : ∀ (l : List CatPattern) (init : ℚ), 0 ≤ init →
      0 ≤ l.foldl (fun acc p => acc + (if patTest p s then (70 : ℚ) else 0)) init by
    exact h pats 0 le_rfl
  intro l
  induction l with
  | nil => intro init h; exact h
  | cons x xs ih =>
    intro init h
    rw [List.foldl_cons]
    apply ih
    split_ifs <;> linarith

theorem bestFor_singleton (pats : List CatPattern) (s : List Char)
    (hmatch : pats.any (fun p => patTest p s) = true) :
    ∃ sc : ℚ, bestFor pats [] [s] = ((0 : ℤ), sc) := by
  unfold bestFor
  rw [show List.range [s].length = [0] from rfl, List.foldl_cons, List.foldl_nil]
  dsimp only
  rw [if_neg (by decide)]
  simp only [List.getD_cons_zero]
  rw [if_pos hmatch]
  rw [if_pos ?hlt]
  case hlt =>
    have h1 := patBase_nonneg pats s
    have h2 := extraScore_nonneg s
    show (-1 : ℚ) < _
    linarith
  exact ⟨_, rfl⟩

theorem derive_ex7_eval : deriveLabeledKeyPoints Persona.engineer ex7text 3 =
    [KP.mk "性能" ex7sent, KP.mk "" ex7sent] := by
  obtain ⟨sc, hsc⟩ := bestFor_singleton
    (((allCats.find? (fun c => c.1 = "性能")).map (fun c => c.2)).getD []) ex7sent
    (by decide)
  have hsents : (splitSentences ex7text).filter (fun s => 20 < s.length) = [ex7sent] := by
    decide
  have hA : bestFor (((allCats.find? (fun c => c.1 = "発表")).map
      (fun c => c.2)).getD []) [] [ex7sent] = ((-1 : ℤ), (-1 : ℚ)) := by decide
  have hB : bestFor (((allCats.find? (fun c => c.1 = "導入")).map
      (fun c => c.2)).getD []) [] [ex7sent] = ((-1 : ℤ), (-1 : ℚ)) := by decide
  have hC : bestFor (((allCats.find? (fun c => c.1 = "研究")).map
      (fun c => c.2)).getD []) [0] [ex7sent] = ((-1 : ℤ), (-1 : ℚ)) := by decide
  have hD : bestFor (((allCats.find? (fun c => c.1 = "影響")).map
      (fun c => c.2)).getD []) [0] [ex7sent] = ((-1 : ℤ), (-1 : ℚ)) := by decide
  have hE : bestFor (((allCats.find? (fun c => c.1 = "注意")).map
      (fun c => c.2)).getD []) [0] [ex7sent] = ((-1 : ℤ), (-1 : ℚ)) := by decide
  simp +decide only [deriveLabeledKeyPoints, hsents, personaOrder, catLoop,
    hA, hB, hsc, hC, hD, hE, Int.toNat_zero, List.getD_cons_zero, List.nil_append,
    List.length_cons, List.length_nil, if_true, if_false]

/-- C7 counterexample: on a single-sentence text containing "latency",
requesting 3 key points yields two entries drawing on the *same* source
sentence — one labeled `性能` by the category walk and one unlabeled
generic backfill pick (the backfill re-ranks all sentences instead of
only the unused ones). -/
theorem claim_C7_counterexample :
    (deriveLabeledKeyPoints Persona.engineer ex7text 3).map (fun kp => kp.text)
      = [ex7sent, ex7sent]
    ∧ (deriveLabeledKeyPoints Persona.engineer ex7text 3).map (fun kp => kp.label)
      = ["性能", ""] := by
  rw [derive_ex7_eval]
  exact ⟨rfl, rfl⟩

/-- C7 witness: on the concrete input the second emitted entry is an
unlabeled generic pick, and it indeed follows the category-labeled one. -/
theorem claim_C7_extraction_witness :
    ((deriveLabeledKeyPoints Persona.engineer ex7text 3).getD 1 dfltKP).label = "" :=
  (claim_C7_extraction Persona.engineer ex7text 3).2.1 1 1 le_rfl
    (by rw [derive_ex7_eval]; norm_num)
    (by rw [derive_ex7_eval]; rfl)
